import Mathlib

/-!
# Verification of the Antigravity lifecycle controller

Shallow embedding of `src/gui/process_manager.py` (functions
`is_process_running`, `close_antigravity`, `start_antigravity`) and proofs
of the specification claims about it.

Modelling conventions:
* A `Proc` is one entry of the `psutil.process_iter` snapshot: pid, reported
  name and executable path (`None` is modelled as the empty string, exactly
  as the code's `... if proc.info['name'] else ""` coercion produces), plus
  a behaviour schedule: `exitTime` is the absolute model time at which the
  underlying OS process ceases to exist (`none` = it never exits), and
  `infoRaises` models `psutil.NoSuchProcess` / `psutil.AccessDenied` being
  raised while reading the process info inside a scan loop (the code catches
  these and `continue`s).
* `psutil.Process.is_running` is pid-reuse aware: once the process has
  exited it returns `False` forever.  `aliveAt` therefore only depends on
  the absolute time and is monotonically decreasing in time.
* Time is modelled in integer milliseconds; the only passage of time is the
  code's explicit `time.sleep` calls (2s grace period, 0.5s poll interval,
  1s settle period).  All other operations are idealised as instantaneous.
* Python's `s.lower()` is `pyLower`, Python's `needle in hay` substring
  test is `strIn`, Python string truthiness is "data is nonempty".
-/

/-- Python `str.lower()`: lower-case every character. -/
def pyLower (s : String) : String :=
  ⟨s.data.map Char.toLower⟩

/-- Boolean test that `pre` is a leading segment of `l` (used to build the
Python substring test). -/
def strHasPre : List Char → List Char → Bool
  | [], _ => true
  | _ :: _, [] => false
  | a :: as, b :: bs => a == b && strHasPre as bs

/-- Python `needle in hay`: `needle` occurs contiguously inside `hay`
(the empty needle occurs in every string). -/
def strIn (needle hay : String) : Bool :=
  (List.range (hay.data.length + 1)).any
    (fun i => strHasPre needle.data (hay.data.drop i))

/-- Result of `platform.system()`, as branched on by the code. -/
inductive OS
  | darwin
  | windows
  | linux
  | other
deriving DecidableEq

/-- One entry of a `psutil.process_iter` snapshot together with its
behaviour schedule (see module docstring). -/
structure Proc where
  pid : Nat
  name : String
  exe : String
  exitTime : Option Int
  infoRaises : Bool
deriving DecidableEq

/-- `psutil.Process.is_running()` at absolute model time `t`: true until the
process's scheduled exit time (pid-reuse aware, hence monotone). -/
def aliveAt (p : Proc) (t : Int) : Bool :=
  match p.exitTime with
  | none => true
  | some e => decide (t < e)

/-- Outcome of one `proc.kill()` call: the code catches
`NoSuchProcess`/`AccessDenied` per handle and lets any other exception
propagate to the top-level handler. -/
inductive SigOutcome
  | ok
  | noSuchProc
  | accessDenied
  | otherExc
deriving DecidableEq

/-- The environment a `close_antigravity` / `is_process_running` run
observes: the platform, the controller's own pid and
`os.path.dirname(os.path.abspath(sys.executable))`, the process-table
snapshot, whether the Phase-0 cooperative-quit subprocess reported
returncode 0 (any exception or nonzero returncode is `false`: both skip the
grace sleep), and the outcome schedule of the `proc.kill()` calls
(`proc.terminate()` outcomes are not in the environment because the code
catches every exception of the terminate loop and ignores the result, so
they are unobservable). -/
structure CloseEnv where
  system : OS
  selfPid : Nat
  selfDir : String
  table : List Proc
  phase0ok : Bool
  killOut : Nat → SigOutcome

/-- The plain detection rule of `is_process_running` (lines 27-39): the
per-platform classification applied to the lower-cased name and path. -/
def detectClassify (sys : OS) (nameL exeL : String) : Bool :=
  match sys with
  | OS.darwin => strIn "antigravity.app" exeL
  | OS.windows =>
      (nameL == "antigravity.exe" || nameL == "antigravity") ||
        strIn "antigravity" exeL
  | OS.linux => nameL == "antigravity" || strIn "antigravity" exeL
  | OS.other => nameL == "antigravity" || strIn "antigravity" exeL

/-- `is_process_running` (lines 11-46): scan the snapshot, skip entries
whose info read raises, return `True` on the first classified entry. -/
def is_process_running (env : CloseEnv) : Bool :=
  env.table.any (fun p =>
    !p.infoRaises &&
      detectClassify env.system (pyLower p.name) (pyLower p.exe))

/-- The stricter shutdown classification of `close_antigravity`
(lines 129-145).  On Windows: exact name match, or path-substring match
provided the name does not contain "manager". -/
def shutdownClassify (sys : OS) (nameL exeL : String) : Bool :=
  match sys with
  | OS.darwin => strIn "antigravity.app" exeL
  | OS.windows =>
      let isTargetName := nameL == "antigravity.exe" || nameL == "antigravity"
      let isInPath := strIn "antigravity" exeL
      let isManager := strIn "manager" nameL
      isTargetName || (isInPath && !isManager)
  | OS.linux => nameL == "antigravity" || strIn "antigravity" exeL
  | OS.other => nameL == "antigravity" || strIn "antigravity" exeL

/-- The self-exclusion filter of the target-collection scan
(lines 112-126): skip the entry when its pid is the controller's own pid,
or when its (lower-cased) executable path is non-empty and contains the
controller's own (lower-cased) directory as a substring. -/
def selfExcluded (env : CloseEnv) (p : Proc) : Bool :=
  p.pid == env.selfPid ||
    (!(pyLower p.exe).data.isEmpty &&
      strIn (pyLower env.selfDir) (pyLower p.exe))

/-- The target-collection scan of `close_antigravity` (lines 106-152):
entries whose info read raises are skipped, self-excluded entries are
skipped, the rest are kept iff the shutdown classification holds. -/
def collectTargets (env : CloseEnv) : List Proc :=
  env.table.filter (fun p =>
    !p.infoRaises && !selfExcluded env p &&
      shutdownClassify env.system (pyLower p.name) (pyLower p.exe))

/-- Observable actions of a `close_antigravity` run, each stamped with the
absolute model time at which the call was issued:
`phase0` is the platform cooperative-quit attempt (osascript / taskkill),
`term` is a `proc.terminate()` call, `kill` is a `proc.kill()` call. -/
inductive Event
  | phase0 (t : Int)
  | term (p : Proc) (t : Int)
  | kill (p : Proc) (t : Int)
deriving DecidableEq

/-- Mutable run state threaded through `close_antigravity`: current time,
number of `proc.kill()` calls issued so far, and the event log. -/
structure St where
  t : Int
  killIdx : Nat
  events : List Event
deriving DecidableEq

/-- Exceptions that can escape to the top-level handler of
`close_antigravity`: the `NameError` from reading the unbound loop variable
`still_running` (line 190 when the poll loop body never ran), and any
non-psutil exception raised by a `proc.kill()` call (the kill loop only
catches `NoSuchProcess`/`AccessDenied`). -/
inductive PyErr
  | nameErr
  | otherErr
deriving DecidableEq

/-- Phase 0 (lines 67-103): on macOS/Windows issue the cooperative-quit
subprocess; when it reports returncode 0 sleep the 2s grace period.  All
failures are caught and ignored.  Linux and unknown platforms skip it. -/
def phase0run (env : CloseEnv) (st : St) : St :=
  match env.system with
  | OS.darwin =>
      if env.phase0ok then
        { st with t := st.t + 2000, events := st.events ++ [Event.phase0 st.t] }
      else
        { st with events := st.events ++ [Event.phase0 st.t] }
  | OS.windows =>
      if env.phase0ok then
        { st with t := st.t + 2000, events := st.events ++ [Event.phase0 st.t] }
      else
        { st with events := st.events ++ [Event.phase0 st.t] }
  | OS.linux => st
  | OS.other => st

/-- The terminate loop (lines 162-169): for each target, if it is still
running call `proc.terminate()`; every exception of the call is caught and
the loop continues, so only the event is observable. -/
def termLoop : List Proc → St → St
  | [], st => st
  | p :: ps, st =>
      if aliveAt p st.t then
        termLoop ps { st with events := st.events ++ [Event.term p st.t] }
      else
        termLoop ps st

/-- The kill loop (lines 196-201): for each survivor, if it is still
running call `proc.kill()`; `NoSuchProcess`/`AccessDenied` are caught and
the loop continues, any other exception propagates. -/
def killLoop (env : CloseEnv) : List Proc → St → Except PyErr Unit × St
  | [], st => (Except.ok (), st)
  | p :: ps, st =>
      if aliveAt p st.t then
        match env.killOut st.killIdx with
        | SigOutcome.otherExc =>
            (Except.error PyErr.otherErr,
              { st with killIdx := st.killIdx + 1,
                        events := st.events ++ [Event.kill p st.t] })
        | _ =>
            killLoop env ps
              { st with killIdx := st.killIdx + 1,
                        events := st.events ++ [Event.kill p st.t] }
      else
        killLoop env ps st

/-- Result of the Phase-1 poll loop (lines 173-187): either some poll found
every target gone (`earlyTrue`, the function returns `True` there), or the
timeout elapsed and `last` is the final value of the loop-local variable
`still_running` (`none` when the loop body never executed, in which case
reading it afterwards raises `NameError`). -/
inductive PollRes
  | earlyTrue (t : Int)
  | timedOut (last : Option (List Proc)) (t : Int)
deriving DecidableEq

/-- The Phase-1 poll loop.  The Python loop runs
`while time.time() - start_time < timeout`, rebuilding `still_running` from
the full target list each iteration and sleeping 0.5s at the end of each
iteration; since each iteration advances time by exactly 500ms and nothing
else advances it, the condition `elapsed < timeout * 1000` holds for exactly
`(2 * timeout).toNat` iterations, which is taken as the structural
iteration count. -/
def pollLoop (targets : List Proc) (last : Option (List Proc)) (t : Int) :
    Nat → PollRes
  | 0 => PollRes.timedOut last t
  | Nat.succ k =>
      let still := targets.filter (fun p => aliveAt p t)
      if still.isEmpty then PollRes.earlyTrue t
      else pollLoop targets (some still) (t + 500) k

/-- Continuation of `close_antigravity` after the Phase-1 poll loop (lines
183-224), given the Phase-0/terminate-loop state `st2` and the poll
result: the early `True` return, the `NameError` on an unbound
`still_running`, the empty-survivor `True` fallthrough, the
`force_kill=False` failure return, or the forced-kill phase with its 1s
settle sleep and final liveness check. -/
def afterPoll (env : CloseEnv) (forceKill : Bool) (st2 : St) :
    PollRes → Except PyErr Bool × St
  | PollRes.earlyTrue t1 => (Except.ok true, { st2 with t := t1 })
  | PollRes.timedOut none t1 =>
      (Except.error PyErr.nameErr, { st2 with t := t1 })
  | PollRes.timedOut (some l) t1 =>
      if l.isEmpty then (Except.ok true, { st2 with t := t1 })
      else if !forceKill then (Except.ok false, { st2 with t := t1 })
      else
        match killLoop env l { st2 with t := t1 } with
        | (Except.error e, st3) => (Except.error e, st3)
        | (Except.ok _, st3) =>
            if (l.filter (fun p => aliveAt p (st3.t + 1000))).isEmpty then
              (Except.ok true, { st3 with t := st3.t + 1000 })
            else (Except.ok false, { st3 with t := st3.t + 1000 })

/-- The body of `close_antigravity` inside its top-level `try` (lines
66-224): Phase 0, the target-collection scan, early `True` on an empty
target set, the terminate loop, the poll loop, then `afterPoll`. -/
def close_antigravity_body (env : CloseEnv) (timeout : Int) (forceKill : Bool) :
    Except PyErr Bool × St :=
  if (collectTargets env).isEmpty then (Except.ok true, phase0run env ⟨0, 0, []⟩)
  else
    afterPoll env forceKill (termLoop (collectTargets env) (phase0run env ⟨0, 0, []⟩))
      (pollLoop (collectTargets env) none
        (termLoop (collectTargets env) (phase0run env ⟨0, 0, []⟩)).t
        (2 * timeout).toNat)

/-- `close_antigravity` (lines 48-228): run the body under the top-level
handler, which converts any escaped exception into the `False` result.
Returns the result value together with the event log. -/
def close_antigravity (env : CloseEnv) (timeout : Int) (forceKill : Bool) :
    Bool × List Event :=
  match close_antigravity_body env timeout forceKill with
  | (Except.ok b, st) => (b, st.events)
  | (Except.error _, st) => (false, st.events)

/-- Outcome of the single `open_uri` call of a launch: it returns a truthy
or falsy value, or raises. -/
inductive UOut
  | retTrue
  | retFalse
  | exc
deriving DecidableEq

/-- Outcome of a `subprocess.Popen` call: the spawn is issued, or the call
raises. -/
inductive POut
  | ok
  | exc
deriving DecidableEq

/-- Outcome of the Windows executable lookup
`get_antigravity_executable_path()` combined with the `path.exists()`
check: a usable path was found, no usable path (falsy or missing on disk),
or the lookup raised. -/
inductive LookupOut
  | found
  | notFound
  | exc
deriving DecidableEq

/-- Environment of a `start_antigravity` run: the platform and the outcome
schedules of the OS primitives (`Popen` and the Windows lookup are indexed
by call count since the bounded retry can invoke them twice). -/
structure LaunchEnv where
  system : OS
  uriOut : UOut
  lookupOut : Nat → LookupOut
  popenOut : Nat → POut

/-- Strategy attempts observable from a launch: the URI-protocol attempt
and the native path-based attempt. -/
inductive LEv
  | uri
  | path
deriving DecidableEq

/-- Run state of a launch: call counters for the indexed primitives and the
attempt log. -/
structure LSt where
  popenIdx : Nat
  lookupIdx : Nat
  events : List LEv
deriving DecidableEq

/-- Result of the path-based fallback section (lines 254-267): control
reaches the final `return True`, the code returns `False` (Windows
executable not found, line 265), or an exception escapes the section. -/
inductive FRes
  | retTrue
  | retFalse
  | exc
deriving DecidableEq

/-- The path-based fallback section of `start_antigravity` (lines 254-267):
macOS spawns `open -a Antigravity`, Windows resolves the executable path
(returning `False` when none is usable) and spawns it, Linux spawns
`antigravity`; a platform outside the three branches falls through directly
to `return True` without any OS call. -/
def fallbackLaunch (env : LaunchEnv) (st : LSt) : FRes × LSt :=
  match env.system with
  | OS.darwin =>
      match env.popenOut st.popenIdx with
      | POut.ok =>
          (FRes.retTrue, { st with popenIdx := st.popenIdx + 1,
                                   events := st.events ++ [LEv.path] })
      | POut.exc =>
          (FRes.exc, { st with popenIdx := st.popenIdx + 1,
                               events := st.events ++ [LEv.path] })
  | OS.windows =>
      match env.lookupOut st.lookupIdx with
      | LookupOut.exc =>
          (FRes.exc, { st with lookupIdx := st.lookupIdx + 1,
                               events := st.events ++ [LEv.path] })
      | LookupOut.notFound =>
          (FRes.retFalse, { st with lookupIdx := st.lookupIdx + 1,
                                    events := st.events ++ [LEv.path] })
      | LookupOut.found =>
          match env.popenOut st.popenIdx with
          | POut.ok =>
              (FRes.retTrue, { st with popenIdx := st.popenIdx + 1,
                                       lookupIdx := st.lookupIdx + 1,
                                       events := st.events ++ [LEv.path] })
          | POut.exc =>
              (FRes.exc, { st with popenIdx := st.popenIdx + 1,
                                   lookupIdx := st.lookupIdx + 1,
                                   events := st.events ++ [LEv.path] })
  | OS.linux =>
      match env.popenOut st.popenIdx with
      | POut.ok =>
          (FRes.retTrue, { st with popenIdx := st.popenIdx + 1,
                                   events := st.events ++ [LEv.path] })
      | POut.exc =>
          (FRes.exc, { st with popenIdx := st.popenIdx + 1,
                               events := st.events ++ [LEv.path] })
  | OS.other => (FRes.retTrue, st)

/-- `start_antigravity(use_uri=False)`: only the fallback section runs; on
an exception the handler (line 271) finds `use_uri` false and returns
`False` with no further attempt. -/
def startFromPath (env : LaunchEnv) (st : LSt) : Bool × LSt :=
  match fallbackLaunch env st with
  | (FRes.retTrue, st1) => (true, st1)
  | (FRes.retFalse, st1) => (false, st1)
  | (FRes.exc, st1) => (false, st1)

/-- `start_antigravity(use_uri=True)`: try the URI launch (lines 242-251);
on a truthy `open_uri` return `True`, on a falsy one fall through to the
fallback section inside the same `try`; when an exception escapes the
`try`, the handler retries the whole call with `use_uri=False`. -/
def startWithUri (env : LaunchEnv) (st : LSt) : Bool × LSt :=
  let st1 := { st with events := st.events ++ [LEv.uri] }
  match env.uriOut with
  | UOut.retTrue => (true, st1)
  | UOut.retFalse =>
      match fallbackLaunch env st1 with
      | (FRes.retTrue, st2) => (true, st2)
      | (FRes.retFalse, st2) => (false, st2)
      | (FRes.exc, st2) => startFromPath env st2
  | UOut.exc => startFromPath env st1

/-- `start_antigravity` (lines 230-277): returns the result value and the
log of strategy attempts. -/
def start_antigravity (env : LaunchEnv) (useUri : Bool) : Bool × List LEv :=
  let r := if useUri then startWithUri env ⟨0, 0, []⟩
           else startFromPath env ⟨0, 0, []⟩
  (r.1, r.2.events)

/-! ## Witness and counterexample environments -/

/-- Scenario process pid 100: named `antigravity.exe`, exits at t=1000
(within 1s of the cooperative terminate signal sent at t=0). -/
def proc100 : Proc :=
  ⟨100, "antigravity.exe", "c:/apps/antigravity/antigravity.exe", some 1000, false⟩

/-- Scenario process pid 101: named `antigravity` with a target-matching
path; ignores cooperative termination and dies only after the forced kill
issued at t=2000 (exit at t=2500, before the final check at t=3000). -/
def proc101 : Proc :=
  ⟨101, "antigravity", "c:/apps/antigravity/helper", some 2500, false⟩

/-- Scenario process pid 200: the controller's own process. -/
def proc200 : Proc :=
  ⟨200, "antigravity.exe", "c:/tools/antigravity/self.exe", none, false⟩

/-- The end-to-end scenario environment: Windows, controller pid 200, the
three scenario processes, the Phase-0 cooperative quit reporting failure. -/
def envScenario : CloseEnv :=
  ⟨OS.windows, 200, "c:/mgr", [proc100, proc101, proc200], false,
    fun _ => SigOutcome.ok⟩

/-- Launch environment for the fallback counterexample: Linux, `open_uri`
returns false, every `Popen` raises. -/
def envLaunchFail : LaunchEnv :=
  ⟨OS.linux, UOut.retFalse, fun _ => LookupOut.found, fun _ => POut.exc⟩

/-- A process that never exits and matches the Linux target rule by exact
name. -/
def procStubborn : Proc := ⟨5, "antigravity", "/opt/ag/antigravity", none, false⟩

/-- A Linux environment whose only table entry is the stubborn target. -/
def envStubborn : CloseEnv :=
  ⟨OS.linux, 1, "/sd", [procStubborn], false, fun _ => SigOutcome.ok⟩

/-- A Linux environment whose only table entry is an unrelated process. -/
def envNoTargets : CloseEnv :=
  ⟨OS.linux, 1, "/sd", [⟨3, "bash", "/bin/bash", none, false⟩], false,
    fun _ => SigOutcome.ok⟩

/-- A Windows manager process: its name contains "manager", is not an exact
target name, and its path substring-matches the target. -/
def procMgrOnly : Proc :=
  ⟨9, "Antigravity Manager.exe", "c:/apps/antigravity/manager.exe", none, false⟩

/-- A Windows environment whose only table entry is the manager process. -/
def envMgrOnly : CloseEnv :=
  ⟨OS.windows, 1, "c:/selfdir", [procMgrOnly], false, fun _ => SigOutcome.ok⟩

/-! ## Helper lemmas -/

/-- A leading occurrence is in particular an occurrence: `strHasPre` on the
full data implies the Python substring test `strIn`. -/
lemma strIn_of_pre {needle hay : String}
    (h : strHasPre needle.data hay.data = true) : strIn needle hay = true := by
  unfold strIn
  rw [List.any_eq_true]
  exact ⟨0, List.mem_range.mpr (Nat.succ_pos _), by simpa using h⟩

/-- `is_running` is monotone: once a process is gone it stays gone, so
liveness at a later time implies liveness at every earlier time. -/
lemma aliveAt_mono {p : Proc} {t t' : Int} (h : aliveAt p t = true)
    (hle : t' ≤ t) : aliveAt p t' = true := by
  unfold aliveAt at h ⊢
  cases hE : p.exitTime with
  | none => rfl
  | some e =>
      rw [hE] at h
      simp only [decide_eq_true_eq] at h ⊢
      omega

/-- Events produced by Phase 0 on top of a prior log are cooperative-quit
events only. -/
lemma mem_phase0run {env : CloseEnv} {st : St} {ev : Event}
    (h : ev ∈ (phase0run env st).events) :
    ev ∈ st.events ∨ ∃ t, ev = Event.phase0 t := by
  unfold phase0run at h
  cases hs : env.system <;> rw [hs] at h
  case linux => exact Or.inl h
  case other => exact Or.inl h
  all_goals
    cases hp : env.phase0ok <;> rw [hp] at h <;> simp at h <;>
      rcases h with h1 | h1 <;>
        first
          | exact Or.inl h1
          | exact Or.inr ⟨st.t, h1⟩

/-- The terminate loop does not advance the clock. -/
lemma termLoop_t (ps : List Proc) : ∀ st : St, (termLoop ps st).t = st.t := by
  induction ps with
  | nil => intro st; rfl
  | cons p ps ih =>
      intro st
      unfold termLoop
      by_cases hA : aliveAt p st.t = true
      · rw [if_pos hA, ih]
      · rw [if_neg hA, ih]

/-- Events produced by the terminate loop on top of a prior log are
terminate events of listed processes that were observed running. -/
lemma mem_termLoop {ev : Event} (ps : List Proc) : ∀ st : St,
    ev ∈ (termLoop ps st).events →
    ev ∈ st.events ∨ ∃ p, p ∈ ps ∧ ev = Event.term p st.t ∧ aliveAt p st.t = true := by
  induction ps with
  | nil => intro st h; exact Or.inl h
  | cons p ps ih =>
      intro st h
      unfold termLoop at h
      by_cases hA : aliveAt p st.t = true
      · rw [if_pos hA] at h
        rcases ih _ h with h1 | ⟨q, hq, hev, hal⟩
        · rcases List.mem_append.mp h1 with h2 | h2
          · exact Or.inl h2
          · exact Or.inr ⟨p, List.mem_cons_self p ps,
              List.mem_singleton.mp h2, hA⟩
        · exact Or.inr ⟨q, List.mem_cons_of_mem p hq, hev, hal⟩
      · rw [if_neg hA] at h
        rcases ih _ h with h1 | ⟨q, hq, hev, hal⟩
        · exact Or.inl h1
        · exact Or.inr ⟨q, List.mem_cons_of_mem p hq, hev, hal⟩

/-- Events produced by the kill loop on top of a prior log are kill events
of listed processes that were observed running at the loop's time. -/
lemma mem_killLoop {env : CloseEnv} {ev : Event} (ps : List Proc) : ∀ st : St,
    ev ∈ ((killLoop env ps st).2).events →
    ev ∈ st.events ∨ ∃ p, p ∈ ps ∧ ev = Event.kill p st.t ∧ aliveAt p st.t = true := by
  induction ps with
  | nil => intro st h; exact Or.inl h
  | cons p ps ih =>
      intro st h
      unfold killLoop at h
      by_cases hA : aliveAt p st.t = true
      · rw [if_pos hA] at h
        have hstep :
            ev ∈ (st.events ++ [Event.kill p st.t]) →
            ev ∈ st.events ∨
              ∃ q, q ∈ p :: ps ∧ ev = Event.kill q st.t ∧ aliveAt q st.t = true := by
          intro hmem
          rcases List.mem_append.mp hmem with h2 | h2
          · exact Or.inl h2
          · exact Or.inr ⟨p, List.mem_cons_self p ps, List.mem_singleton.mp h2, hA⟩
        cases hout : env.killOut st.killIdx <;> rw [hout] at h <;>
          first
            | exact hstep h
            | (rcases ih _ h with h1 | ⟨q, hq, hev, hal⟩ <;>
                first
                  | exact hstep h1
                  | exact Or.inr ⟨q, List.mem_cons_of_mem p hq, hev, hal⟩)
      · rw [if_neg hA] at h
        rcases ih _ h with h1 | ⟨q, hq, hev, hal⟩
        · exact Or.inl h1
        · exact Or.inr ⟨q, List.mem_cons_of_mem p hq, hev, hal⟩

/-- With zero iterations the poll loop times out immediately, with the
loop-local variable in whatever state it was given (unbound = `none`). -/
lemma pollLoop_zero (targets : List Proc) (last : Option (List Proc)) (t : Int) :
    pollLoop targets last t 0 = PollRes.timedOut last t := rfl

/-- Whenever the poll loop times out with a bound `still_running`, that
list is a sublist of the targets (it was rebuilt from the target list by a
liveness filter on the last executed iteration), provided the initially
bound value (if any) also was. -/
lemma pollLoop_sub (targets : List Proc) : ∀ (k : Nat)
    (last : Option (List Proc)) (t t1 : Int) (l : List Proc),
    (∀ l0, last = some l0 → l0 ⊆ targets) →
    pollLoop targets last t k = PollRes.timedOut (some l) t1 →
    l ⊆ targets := by
  intro k
  induction k with
  | zero =>
      intro last t t1 l hinv h
      rw [pollLoop_zero] at h
      injection h with h1 h2
      exact hinv l h1
  | succ k ih =>
      intro last t t1 l hinv h
      unfold pollLoop at h
      by_cases he : (targets.filter (fun p => aliveAt p t)).isEmpty = true
      · rw [if_pos he] at h; cases h
      · rw [if_neg he] at h
        refine ih _ _ _ _ (fun l0 hl0 => ?_) h
        injection hl0 with h1
        rw [← h1]
        exact fun x hx => (List.mem_filter.mp hx).1

/-- A target that never exits keeps every poll's `still_running` nonempty,
so a poll loop with at least one iteration times out with that target still
in the bound `still_running`. -/
lemma pollLoop_stubborn (targets : List Proc) (p : Proc)
    (hp : p ∈ targets) (hn : p.exitTime = none) : ∀ (k : Nat), 1 ≤ k →
    ∀ (last : Option (List Proc)) (t : Int),
    ∃ l t1, pollLoop targets last t k = PollRes.timedOut (some l) t1 ∧ p ∈ l := by
  intro k
  induction k with
  | zero => intro hk; omega
  | succ k ih =>
      intro _ last t
      have halive : aliveAt p t = true := by simp [aliveAt, hn]
      have hmem : p ∈ targets.filter (fun q => aliveAt q t) :=
        List.mem_filter.mpr ⟨hp, halive⟩
      have hne : ¬((targets.filter (fun q => aliveAt q t)).isEmpty = true) := by
        intro habs
        rw [List.isEmpty_iff] at habs
        rw [habs] at hmem
        cases hmem
      unfold pollLoop
      rw [if_neg hne]
      cases k with
      | zero => exact ⟨_, _, pollLoop_zero _ _ _, hmem⟩
      | succ k1 => exact ih (by omega) _ _

/-- The result-and-log pair of `close_antigravity` is the body's result run
through the top-level handler, and the log is the body's log. -/
lemma close_antigravity_eq (env : CloseEnv) (T : Int) (fk : Bool) :
    (close_antigravity env T fk).2 = (close_antigravity_body env T fk).2.events ∧
    ((close_antigravity_body env T fk).1.isOk = false →
      (close_antigravity env T fk).1 = false) ∧
    (∀ b, (close_antigravity_body env T fk).1 = Except.ok b →
      (close_antigravity env T fk).1 = b) := by
  rcases hb : close_antigravity_body env T fk with ⟨r, st⟩
  cases r with
  | ok b => simp [close_antigravity, hb, Except.isOk, Except.toBool]
  | error e => simp [close_antigravity, hb, Except.isOk, Except.toBool]

/-- Every event of a `close_antigravity` run is either the Phase-0
cooperative-quit attempt, or a terminate/kill call on a process of the
shutdown-eligible target set that was observed running at the stamped
time. -/
lemma mem_close_events {env : CloseEnv} {T : Int} {fk : Bool} {ev : Event}
    (h : ev ∈ (close_antigravity env T fk).2) :
    (∃ t, ev = Event.phase0 t) ∨
    (∃ p t, ev = Event.term p t ∧ p ∈ collectTargets env ∧ aliveAt p t = true) ∨
    (∃ p t, ev = Event.kill p t ∧ p ∈ collectTargets env ∧ aliveAt p t = true) := by
  have hst1 : ev ∈ (phase0run env ⟨0, 0, []⟩).events →
      (∃ t, ev = Event.phase0 t) := by
    intro hm
    rcases mem_phase0run hm with h1 | h1
    · cases h1
    · exact h1
  have hst2 : ev ∈ (termLoop (collectTargets env) (phase0run env ⟨0, 0, []⟩)).events →
      (∃ t, ev = Event.phase0 t) ∨
      (∃ p t, ev = Event.term p t ∧ p ∈ collectTargets env ∧ aliveAt p t = true) := by
    intro hm
    rcases mem_termLoop _ _ hm with h1 | ⟨q, hq, hev, hal⟩
    · exact Or.inl (hst1 h1)
    · exact Or.inr ⟨q, _, hev, hq, hal⟩
  rw [(close_antigravity_eq env T fk).1] at h
  unfold close_antigravity_body afterPoll at h
  split at h
  · exact Or.inl (hst1 h)
  · split at h
    · rcases hst2 h with h1 | h1
      · exact Or.inl h1
      · exact Or.inr (Or.inl h1)
    · rcases hst2 h with h1 | h1
      · exact Or.inl h1
      · exact Or.inr (Or.inl h1)
    · rename_i l t1 heqpoll
      have hl : l ⊆ collectTargets env :=
        pollLoop_sub (collectTargets env) _ _ _ _ _
          (fun l0 h0 => Option.noConfusion h0) heqpoll
      have hkres : ∀ (r3 : Except PyErr Unit) (st3 : St),
          killLoop env l
            { termLoop (collectTargets env) (phase0run env ⟨0, 0, []⟩) with t := t1 }
            = (r3, st3) →
          ev ∈ st3.events →
          (∃ t, ev = Event.phase0 t) ∨
          (∃ p t, ev = Event.term p t ∧ p ∈ collectTargets env ∧ aliveAt p t = true) ∨
          (∃ p t, ev = Event.kill p t ∧ p ∈ collectTargets env ∧ aliveAt p t = true) := by
        intro r3 st3 heq hm
        have hm2 : ev ∈ (killLoop env l
            { termLoop (collectTargets env) (phase0run env ⟨0, 0, []⟩) with
                t := t1 }).2.events := by
          rw [heq]; exact hm
        rcases mem_killLoop _ _ hm2 with h1 | ⟨q, hq, hev, hal⟩
        · rcases hst2 h1 with h2 | h2
          · exact Or.inl h2
          · exact Or.inr (Or.inl h2)
        · exact Or.inr (Or.inr ⟨q, t1, hev, hl hq, hal⟩)
      split at h
      · rcases hst2 h with h1 | h1
        · exact Or.inl h1
        · exact Or.inr (Or.inl h1)
      · split at h
        · rcases hst2 h with h1 | h1
          · exact Or.inl h1
          · exact Or.inr (Or.inl h1)
        · split at h
          · rename_i e st3 heqk
            exact hkres _ _ heqk h
          · rename_i a st3 heqk
            split at h
            · exact hkres _ _ heqk h
            · exact hkres _ _ heqk h

/-- The log produced by Phase 0 followed by the terminate loop holds no
kill event. -/
lemma no_kill_in_termLoop_events {env : CloseEnv} {ts : List Proc} {p : Proc}
    {t : Int} :
    Event.kill p t ∉ (termLoop ts (phase0run env ⟨0, 0, []⟩)).events := by
  intro hm
  rcases mem_termLoop _ _ hm with h1 | ⟨q, hq, hev, hal⟩
  · rcases mem_phase0run h1 with h2 | ⟨t0, h2⟩
    · exact List.not_mem_nil _ h2
    · exact Event.noConfusion h2
  · exact Event.noConfusion hev

/-- When the target-collection scan finds nothing, `close_antigravity`
returns `True` straight away and the log holds no per-process signal. -/
lemma close_empty_helper (env : CloseEnv) (T : Int) (fk : Bool)
    (hE : collectTargets env = []) :
    (close_antigravity env T fk).1 = true ∧
    ∀ (p : Proc) (t : Int), Event.term p t ∉ (close_antigravity env T fk).2 ∧
      Event.kill p t ∉ (close_antigravity env T fk).2 := by
  have hbody : close_antigravity_body env T fk =
      (Except.ok true, phase0run env ⟨0, 0, []⟩) := by
    unfold close_antigravity_body
    rw [if_pos (by rw [hE]; rfl)]
  refine ⟨(close_antigravity_eq env T fk).2.2 true (by rw [hbody]), ?_⟩
  intro p t
  constructor <;> intro hmem <;>
    rw [(close_antigravity_eq env T fk).1, hbody] at hmem <;>
    rcases mem_phase0run hmem with h1 | ⟨t0, h1⟩ <;>
    first
      | exact List.not_mem_nil _ h1
      | exact Event.noConfusion h1

/-- With `force_kill=False` the kill loop is unreachable, so the log of a
`close_antigravity` run holds no kill event. -/
lemma close_noForce_no_kill (env : CloseEnv) (T : Int) (p : Proc) (t : Int) :
    Event.kill p t ∉ (close_antigravity env T false).2 := by
  intro hmem
  rw [(close_antigravity_eq env T false).1] at hmem
  unfold close_antigravity_body afterPoll at hmem
  split at hmem
  · rcases mem_phase0run hmem with h1 | ⟨t0, h1⟩
    · exact List.not_mem_nil _ h1
    · exact Event.noConfusion h1
  · split at hmem
    · exact no_kill_in_termLoop_events hmem
    · exact no_kill_in_termLoop_events hmem
    · split at hmem
      · exact no_kill_in_termLoop_events hmem
      · split at hmem
        · exact no_kill_in_termLoop_events hmem
        · rename_i hcontra
          exact hcontra rfl

/-- A stubborn eligible target makes `close_antigravity(force_kill=False)`
report failure: the poll either never runs (non-positive timeout, giving
the `NameError` path) or times out with the target still alive. -/
lemma close_noForce_result (env : CloseEnv) (T : Int)
    (h : ∃ p, p ∈ collectTargets env ∧ p.exitTime = none) :
    (close_antigravity env T false).1 = false := by
  obtain ⟨p, hp, hn⟩ := h
  have hcond : ¬((collectTargets env).isEmpty = true) := by
    cases hE : collectTargets env
    · rw [hE] at hp; exact absurd hp (List.not_mem_nil p)
    · simp
  have hb : (close_antigravity_body env T false).1 = Except.error PyErr.nameErr ∨
      (close_antigravity_body env T false).1 = Except.ok false := by
    unfold close_antigravity_body
    rw [if_neg hcond]
    cases hk : (2 * T).toNat with
    | zero =>
        rw [pollLoop_zero]
        exact Or.inl rfl
    | succ k =>
        obtain ⟨l, t1, heq, hpl⟩ :=
          pollLoop_stubborn (collectTargets env) p hp hn (k + 1)
            (Nat.succ_le_succ (Nat.zero_le k)) none
            (termLoop (collectTargets env) (phase0run env ⟨0, 0, []⟩)).t
        rw [heq]
        have hle : ¬(l.isEmpty = true) := by
          cases hE : l
          · rw [hE] at hpl; exact absurd hpl (List.not_mem_nil p)
          · simp
        simp only [afterPoll]
        rw [if_neg hle, if_pos (show (!false) = true from rfl)]
        exact Or.inr rfl
  rcases hb with hb | hb
  · exact (close_antigravity_eq env T false).2.1 (by rw [hb]; rfl)
  · exact (close_antigravity_eq env T false).2.2 false hb

/-- With a non-positive timeout and a nonempty target set, the body ends in
the `NameError` from the unbound `still_running`, with the log stopping at
the terminate loop. -/
lemma close_nonpos_timeout_body (env : CloseEnv) (T : Int) (fk : Bool)
    (hT : T ≤ 0) (hne : collectTargets env ≠ []) :
    close_antigravity_body env T fk =
      (Except.error PyErr.nameErr,
        termLoop (collectTargets env) (phase0run env ⟨0, 0, []⟩)) := by
  have hk : (2 * T).toNat = 0 := by omega
  have hcond : ¬((collectTargets env).isEmpty = true) := by
    cases hE : collectTargets env
    · exact absurd hE hne
    · simp
  unfold close_antigravity_body
  rw [if_neg hcond, hk, pollLoop_zero]
  rfl

/-- On Windows the shutdown classification is at least as strict as the
plain detection classification. -/
lemma windows_shutdown_imp_detect (nameL exeL : String)
    (h : shutdownClassify OS.windows nameL exeL = true) :
    detectClassify OS.windows nameL exeL = true := by
  unfold shutdownClassify at h
  unfold detectClassify
  cases hN : (nameL == "antigravity.exe" || nameL == "antigravity") <;>
    cases hP : strIn "antigravity" exeL <;>
    cases hM : strIn "manager" nameL <;>
    rw [hN, hP, hM] at h <;> simp_all

/-- On Windows a process whose name contains "manager" and is not an exact
target name never passes the shutdown classification. -/
lemma windows_manager_not_shutdown (nameL exeL : String)
    (hm : strIn "manager" nameL = true) (h1 : nameL ≠ "antigravity.exe")
    (h2 : nameL ≠ "antigravity") :
    shutdownClassify OS.windows nameL exeL = false := by
  unfold shutdownClassify
  have e1 : (nameL == "antigravity.exe") = false := by
    rw [beq_eq_false_iff_ne]; exact h1
  have e2 : (nameL == "antigravity") = false := by
    rw [beq_eq_false_iff_ne]; exact h2
  rw [e1, e2, hm]
  simp

/-- A raising fallback section appends exactly one path attempt to the
log. -/
lemma fallback_exc_events {env : LaunchEnv} {st : LSt}
    (h : (fallbackLaunch env st).1 = FRes.exc) :
    ((fallbackLaunch env st).2).events = st.events ++ [LEv.path] := by
  cases hs : env.system
  case darwin =>
    cases ho : env.popenOut st.popenIdx
    · simp [fallbackLaunch, hs, ho] at h
    · simp [fallbackLaunch, hs, ho]
  case windows =>
    cases hl : env.lookupOut st.lookupIdx
    · cases ho : env.popenOut st.popenIdx
      · simp [fallbackLaunch, hs, hl, ho] at h
      · simp [fallbackLaunch, hs, hl, ho]
    · simp [fallbackLaunch, hs, hl] at h
    · simp [fallbackLaunch, hs, hl]
  case linux =>
    cases ho : env.popenOut st.popenIdx
    · simp [fallbackLaunch, hs, ho] at h
    · simp [fallbackLaunch, hs, ho]
  case other => simp [fallbackLaunch, hs] at h

/-! ## Claim theorems -/

/-- C1 (counterexample): the launch-retry claim is false on the code.  On
the environment `envLaunchFail` (Linux, `open_uri` returning false, every
`Popen` raising): a `start_antigravity(use_uri=False)` call whose
path-based launch raises does NOT retry by attempting a URI launch (zero
URI attempts, refuting "retries exactly once by attempting URI launch");
and a `start_antigravity(use_uri=True)` call in which the URI open fails
and the path-based fallback raises performs a further retry, for three
strategy attempts in total (refuting "at most two strategy attempts in
total"). -/
theorem start_antigravity_no_uri_retry_cex :
    ¬((start_antigravity envLaunchFail false).2.count LEv.uri = 1) ∧
    ¬((start_antigravity envLaunchFail true).2.length ≤ 2) := by decide

/-- C1 (amended): whenever every path-based launch attempt raises,
`start_antigravity(use_uri=False)` returns false after its single
path-based attempt with no URI attempt and no retry; and
`start_antigravity(use_uri=True)` with a falsy `open_uri` retries the
whole call once with `use_uri=False` — attempting the path-based launch a
second time, for exactly three strategy attempts (one URI, two path-based)
— and returns false.  The recursion is bounded (depth at most one). -/
theorem start_antigravity_fallback_amended (env : LaunchEnv)
    (hexc : ∀ st : LSt, (fallbackLaunch env st).1 = FRes.exc) :
    start_antigravity env false = (false, [LEv.path]) ∧
    (env.uriOut = UOut.retFalse →
      start_antigravity env true = (false, [LEv.uri, LEv.path, LEv.path])) := by
  cases hs : env.system
  case other =>
    exfalso
    have h := hexc ⟨0, 0, []⟩
    simp [fallbackLaunch, hs] at h
  case darwin =>
    have hpo : ∀ n, env.popenOut n = POut.exc := by
      intro n
      have h := hexc ⟨n, 0, []⟩
      cases ho : env.popenOut n
      · simp [fallbackLaunch, hs, ho] at h
      · rfl
    refine ⟨?_, fun hu => ?_⟩
    · simp [start_antigravity, startFromPath, fallbackLaunch, hs, hpo]
    · simp [start_antigravity, startWithUri, startFromPath, fallbackLaunch,
        hs, hpo, hu]
  case linux =>
    have hpo : ∀ n, env.popenOut n = POut.exc := by
      intro n
      have h := hexc ⟨n, 0, []⟩
      cases ho : env.popenOut n
      · simp [fallbackLaunch, hs, ho] at h
      · rfl
    refine ⟨?_, fun hu => ?_⟩
    · simp [start_antigravity, startFromPath, fallbackLaunch, hs, hpo]
    · simp [start_antigravity, startWithUri, startFromPath, fallbackLaunch,
        hs, hpo, hu]
  case windows =>
    cases hl0 : env.lookupOut 0 <;> cases hl1 : env.lookupOut 1 <;>
      cases hp0 : env.popenOut 0 <;> cases hp1 : env.popenOut 1 <;>
      (try (have hA := hexc ⟨0, 0, []⟩
            simp [fallbackLaunch, hs, hl0, hl1, hp0, hp1] at hA)) <;>
      (try (have hB := hexc ⟨0, 1, []⟩
            simp [fallbackLaunch, hs, hl0, hl1, hp0, hp1] at hB)) <;>
      (try (have hC := hexc ⟨1, 1, []⟩
            simp [fallbackLaunch, hs, hl0, hl1, hp0, hp1] at hC)) <;>
      refine ⟨?_, fun hu => ?_⟩ <;>
      simp [start_antigravity, startWithUri, startFromPath, fallbackLaunch,
        hs, hl0, hl1, hp0, hp1] <;>
      simp [hu]

/-- C1 (witness for the amended theorem): the amended behaviour evaluated
on `envLaunchFail`. -/
theorem start_antigravity_fallback_amended_wit :
    start_antigravity envLaunchFail false = (false, [LEv.path]) ∧
    start_antigravity envLaunchFail true =
      (false, [LEv.uri, LEv.path, LEv.path]) := by
  have h := start_antigravity_fallback_amended envLaunchFail
    (by intro st
        cases hp : st.popenIdx <;> simp [fallbackLaunch, envLaunchFail])
  exact ⟨h.1, h.2 rfl⟩

/-- C2: a handle whose pid is the controller's own pid, or whose non-empty
executable path lies under (here: starts with, after lower-casing) the
controller's own directory, is never placed in the shutdown-eligible
target set and never receives a terminate or kill call, whatever its name
or path look like. -/
theorem close_self_exclusion (env : CloseEnv) (p : Proc) (_hmem : p ∈ env.table)
    (hsel : p.pid = env.selfPid ∨
      (p.exe.data ≠ [] ∧
        strHasPre (pyLower env.selfDir).data (pyLower p.exe).data = true)) :
    p ∉ collectTargets env ∧
    ∀ (T : Int) (fk : Bool) (t : Int),
      Event.term p t ∉ (close_antigravity env T fk).2 ∧
      Event.kill p t ∉ (close_antigravity env T fk).2 := by
  have hex : selfExcluded env p = true := by
    unfold selfExcluded
    rcases hsel with hpid | ⟨hne, hpre⟩
    · rw [hpid]
      simp
    · have h1 : (pyLower p.exe).data.isEmpty = false := by
        unfold pyLower
        cases hE : p.exe.data with
        | nil => exact absurd hE hne
        | cons a l => simp
      have h2 : strIn (pyLower env.selfDir) (pyLower p.exe) = true :=
        strIn_of_pre hpre
      rw [h1, h2]
      simp
  have hnot : p ∉ collectTargets env := by
    intro hc
    have hpred : (!p.infoRaises && !selfExcluded env p &&
        shutdownClassify env.system (pyLower p.name) (pyLower p.exe)) = true :=
      (List.mem_filter.mp hc).2
    rw [hex] at hpred
    simp at hpred
  refine ⟨hnot, ?_⟩
  intro T fk t
  constructor <;> intro hm <;>
    rcases mem_close_events hm with ⟨t0, hev⟩ | ⟨q, t0, hev, hq, _⟩ |
      ⟨q, t0, hev, hq, _⟩ <;>
    first
      | exact Event.noConfusion hev
      | (injection hev with h1 h2
         subst h1
         exact hnot hq)

/-- C2 (witness): the controller's own process in the end-to-end scenario
environment is excluded and never signalled. -/
theorem close_self_exclusion_wit :
    proc200 ∉ collectTargets envScenario ∧
    Event.term proc200 0 ∉ (close_antigravity envScenario 2 true).2 ∧
    Event.kill proc200 2000 ∉ (close_antigravity envScenario 2 true).2 := by
  have h := close_self_exclusion envScenario proc200 (by decide)
    (Or.inl (by decide))
  exact ⟨h.1, (h.2 2 true 0).1, (h.2 2 true 2000).2⟩

/-- C3 (counterexample): the claim "every enumerated process whose
lower-cased name is exactly antigravity.exe or antigravity is included in
the shutdown-eligible set" is false as stated: the controller's own
process (`proc200`, pid equal to the controller's pid) carries the exact
target name yet is excluded by the self-exclusion filter. -/
theorem windows_exact_name_cex :
    pyLower proc200.name = "antigravity.exe" ∧
    proc200 ∈ envScenario.table ∧ envScenario.system = OS.windows ∧
    proc200 ∉ collectTargets envScenario := by decide

/-- C3 (amended): on Windows, every enumerated process that passes the
self-exclusion filter (info readable, pid and path not the controller's
own) whose lower-cased name is exactly "antigravity.exe" or "antigravity"
is included in the shutdown-eligible set; and every process whose
lower-cased name contains "manager" and is not an exact target name is
excluded from that set, even when its path substring-matches. -/
theorem windows_manager_exclusion_amended (env : CloseEnv) (p : Proc)
    (hsys : env.system = OS.windows) (hmem : p ∈ env.table) :
    (p.infoRaises = false → selfExcluded env p = false →
      (pyLower p.name = "antigravity.exe" ∨ pyLower p.name = "antigravity") →
      p ∈ collectTargets env) ∧
    (strIn "manager" (pyLower p.name) = true →
      pyLower p.name ≠ "antigravity.exe" → pyLower p.name ≠ "antigravity" →
      p ∉ collectTargets env) := by
  constructor
  · intro hinfo hself hname
    have hbool : (!p.infoRaises && !selfExcluded env p &&
        shutdownClassify env.system (pyLower p.name) (pyLower p.exe)) = true := by
      rw [hinfo, hself, hsys]
      rcases hname with h | h <;> simp [shutdownClassify, h]
    exact List.mem_filter.mpr ⟨hmem, hbool⟩
  · intro hmgr h1 h2 hc
    have hpred : (!p.infoRaises && !selfExcluded env p &&
        shutdownClassify env.system (pyLower p.name) (pyLower p.exe)) = true :=
      (List.mem_filter.mp hc).2
    rw [hsys, windows_manager_not_shutdown _ _ hmgr h1 h2] at hpred
    simp at hpred

/-- C3 (witness for the amended theorem): in the scenario table,
`proc100` (exact name, not self) is in the target set; in the
manager-only table, the manager-named process is not. -/
theorem windows_manager_exclusion_amended_wit :
    proc100 ∈ collectTargets envScenario ∧
    procMgrOnly ∉ collectTargets envMgrOnly := by
  constructor
  · exact (windows_manager_exclusion_amended envScenario proc100 (by decide)
      (by decide)).1 (by decide) (by decide) (Or.inl (by decide))
  · exact (windows_manager_exclusion_amended envMgrOnly procMgrOnly (by decide)
      (by decide)).2 (by decide) (by decide) (by decide)

/-- C4: a forced-kill call is only ever issued to a shutdown-eligible
process that is still observed running at the moment of the call (the end
of the full Phase-1 polling timeout); since liveness is monotone, such a
process was alive at every earlier instant, so a process confirmed
not-running during Phase-1 polling never receives a forced-kill call. -/
theorem phase_ordering_kill_only_survivors (env : CloseEnv) (T : Int)
    (fk : Bool) (p : Proc) (t : Int)
    (hm : Event.kill p t ∈ (close_antigravity env T fk).2) :
    p ∈ collectTargets env ∧ ∀ t', t' ≤ t → aliveAt p t' = true := by
  rcases mem_close_events hm with ⟨t0, hev⟩ | ⟨q, t0, hev, hq, hal⟩ |
    ⟨q, t0, hev, hq, hal⟩
  · exact Event.noConfusion hev
  · exact Event.noConfusion hev
  · injection hev with h1 h2
    subst h1
    subst h2
    exact ⟨hq, fun t' ht' => aliveAt_mono hal ht'⟩

/-- C4 (witness): in the stubborn-target run a kill call is issued at
t=1000, and the theorem yields that the process was alive throughout. -/
theorem phase_ordering_kill_only_survivors_wit :
    Event.kill procStubborn 1000 ∈ (close_antigravity envStubborn 1 true).2 ∧
    procStubborn ∈ collectTargets envStubborn ∧
    aliveAt procStubborn 500 = true := by
  have h := phase_ordering_kill_only_survivors envStubborn 1 true
    procStubborn 1000 (by decide)
  exact ⟨by decide, h.1, h.2 500 (by decide)⟩

/-- C6: when the target-collection scan classifies nothing as
shutdown-eligible, `close_antigravity` returns `True` immediately and no
terminate or kill call is issued to any process. -/
theorem close_empty_targets_idempotent (env : CloseEnv) (T : Int) (fk : Bool)
    (hE : collectTargets env = []) :
    (close_antigravity env T fk).1 = true ∧
    ∀ (p : Proc) (t : Int), Event.term p t ∉ (close_antigravity env T fk).2 ∧
      Event.kill p t ∉ (close_antigravity env T fk).2 :=
  close_empty_helper env T fk hE

/-- C6 (witness): the empty-target behaviour evaluated on a table with
only an unrelated process. -/
theorem close_empty_targets_idempotent_wit :
    (close_antigravity envNoTargets 10 true).1 = true ∧
    Event.term ⟨3, "bash", "/bin/bash", none, false⟩ 0 ∉
      (close_antigravity envNoTargets 10 true).2 := by
  have h := close_empty_targets_idempotent envNoTargets 10 true (by decide)
  exact ⟨h.1, (h.2 _ 0).1⟩

/-- C7: `close_antigravity` always returns a plain Boolean result: when
the body raises (any modelled fault, including a non-psutil kill failure
or the unbound-variable `NameError`), the top-level handler converts the
fault into the `False` result; when the body returns normally the value is
passed through; the event log is the body's log either way. -/
theorem close_total_no_raise (env : CloseEnv) (T : Int) (fk : Bool) :
    ((close_antigravity_body env T fk).1.isOk = false →
      (close_antigravity env T fk).1 = false) ∧
    (∀ b, (close_antigravity_body env T fk).1 = Except.ok b →
      (close_antigravity env T fk).1 = b) ∧
    (close_antigravity env T fk).2 = (close_antigravity_body env T fk).2.events :=
  ⟨(close_antigravity_eq env T fk).2.1, (close_antigravity_eq env T fk).2.2,
    (close_antigravity_eq env T fk).1⟩

/-- C7 (witness): a run whose body faults (non-positive timeout with a
live target raises the `NameError`) still returns the plain value
`False`. -/
theorem close_total_no_raise_wit :
    (close_antigravity_body envStubborn 0 true).1.isOk = false ∧
    (close_antigravity envStubborn 0 true).1 = false :=
  ⟨by decide, (close_total_no_raise envStubborn 0 true).1 (by decide)⟩

/-- C5: `close_antigravity(force_kill=False)` with a shutdown-eligible
process that never exits (so it is still alive after the Phase-1 polling
timeout) returns `False`, and no `proc.kill()` call is ever issued during
the whole run. -/
theorem no_force_kill_opt_out (env : CloseEnv) (T : Int)
    (h : ∃ p, p ∈ collectTargets env ∧ p.exitTime = none) :
    (close_antigravity env T false).1 = false ∧
    ∀ (p : Proc) (t : Int), Event.kill p t ∉ (close_antigravity env T false).2 :=
  ⟨close_noForce_result env T h, fun p t => close_noForce_no_kill env T p t⟩

/-- C5 (witness): the opt-out behaviour evaluated on the stubborn-target
environment. -/
theorem no_force_kill_opt_out_wit :
    (close_antigravity envStubborn 1 false).1 = false ∧
    Event.kill procStubborn 1000 ∉ (close_antigravity envStubborn 1 false).2 := by
  have h := no_force_kill_opt_out envStubborn 1 ⟨procStubborn, by decide, rfl⟩
  exact ⟨h.1, h.2 procStubborn 1000⟩

/-- C8: the end-to-end scenario.  On `envScenario` (pids 100, 101 and the
controller's own 200), `close_antigravity(timeout=2, force_kill=True)`
excludes pid 200 from the target set, sends cooperative terminate signals
to pids 100 and 101 at t=0, observes pid 100 exit during Phase-1 polling
(its exit at t=1000 precedes the timeout) and never force-kills it, issues
the forced kill to pid 101 alone at t=2000 (after the full 2s poll), and
returns `True` — the full event log is exactly the four calls listed. -/
theorem close_end_to_end_scenario :
    collectTargets envScenario = [proc100, proc101] ∧
    proc200 ∉ collectTargets envScenario ∧
    close_antigravity envScenario 2 true =
      (true, [Event.phase0 0, Event.term proc100 0, Event.term proc101 0,
              Event.kill proc101 2000]) := by decide

/-- C9: with a non-positive timeout and a nonempty shutdown-eligible set,
the Phase-1 poll loop body never runs, so reading the loop-local
`still_running` raises `NameError`; the top-level handler converts it to
the `False` result, and no forced-kill call is ever issued — whatever
`force_kill` is. -/
theorem close_nonpositive_timeout_name_error (env : CloseEnv) (T : Int)
    (fk : Bool) (hT : T ≤ 0) (hne : collectTargets env ≠ []) :
    (close_antigravity_body env T fk).1 = Except.error PyErr.nameErr ∧
    (close_antigravity env T fk).1 = false ∧
    ∀ (p : Proc) (t : Int), Event.kill p t ∉ (close_antigravity env T fk).2 := by
  have hb := close_nonpos_timeout_body env T fk hT hne
  refine ⟨by rw [hb], (close_antigravity_eq env T fk).2.1 (by rw [hb]; rfl), ?_⟩
  intro p t hmem
  rw [(close_antigravity_eq env T fk).1, hb] at hmem
  exact no_kill_in_termLoop_events hmem

/-- C9 (witness): the `NameError` path evaluated at timeout 0 on the
stubborn-target environment with `force_kill=True`. -/
theorem close_nonpositive_timeout_name_error_wit :
    (close_antigravity_body envStubborn 0 true).1 =
      Except.error PyErr.nameErr ∧
    (close_antigravity envStubborn 0 true).1 = false ∧
    Event.kill procStubborn 0 ∉ (close_antigravity envStubborn 0 true).2 := by
  have h := close_nonpositive_timeout_name_error envStubborn 0 true
    (by decide) (by decide)
  exact ⟨h.1, h.2.1, h.2.2 procStubborn 0⟩

/-- C10: on Windows, `is_process_running` applies neither the
self-exclusion filter nor the manager exclusion: when every
detection-matching table entry has "manager" in its lower-cased name and
is not exactly named "antigravity.exe"/"antigravity" (path match only),
and at least one such readable entry exists, `is_process_running` returns
`True` while the shutdown-eligible set is empty, so `close_antigravity`
returns `True` immediately without issuing any per-process signal. -/
theorem detection_shutdown_divergence (env : CloseEnv)
    (hsys : env.system = OS.windows)
    (hex : ∃ p, p ∈ env.table ∧ p.infoRaises = false ∧
      detectClassify OS.windows (pyLower p.name) (pyLower p.exe) = true)
    (hall : ∀ p, p ∈ env.table →
      detectClassify OS.windows (pyLower p.name) (pyLower p.exe) = true →
      strIn "manager" (pyLower p.name) = true ∧
      pyLower p.name ≠ "antigravity.exe" ∧ pyLower p.name ≠ "antigravity") :
    is_process_running env = true ∧ collectTargets env = [] ∧
    ∀ (T : Int) (fk : Bool), (close_antigravity env T fk).1 = true ∧
      ∀ (p : Proc) (t : Int), Event.term p t ∉ (close_antigravity env T fk).2 ∧
        Event.kill p t ∉ (close_antigravity env T fk).2 := by
  obtain ⟨p0, hp0, hinfo0, hdet0⟩ := hex
  have hrun : is_process_running env = true := by
    unfold is_process_running
    rw [List.any_eq_true]
    exact ⟨p0, hp0, by rw [hinfo0, hsys, hdet0]; rfl⟩
  have hempty : collectTargets env = [] := by
    unfold collectTargets
    rw [List.filter_eq_nil_iff]
    intro a ha hpred0
    have hpred : (!a.infoRaises && !selfExcluded env a &&
        shutdownClassify env.system (pyLower a.name) (pyLower a.exe)) = true :=
      hpred0
    rw [hsys] at hpred
    have hcls : shutdownClassify OS.windows (pyLower a.name) (pyLower a.exe)
        = true := by
      cases hc : shutdownClassify OS.windows (pyLower a.name) (pyLower a.exe)
      · rw [hc] at hpred; simp at hpred
      · rfl
    obtain ⟨hmgr, h1, h2⟩ :=
      hall a ha (windows_shutdown_imp_detect _ _ hcls)
    rw [windows_manager_not_shutdown _ _ hmgr h1 h2] at hcls
    cases hcls
  exact ⟨hrun, hempty, fun T fk => close_empty_helper env T fk hempty⟩

/-- C10 (witness): the divergence evaluated on the manager-only table. -/
theorem detection_shutdown_divergence_wit :
    is_process_running envMgrOnly = true ∧
    collectTargets envMgrOnly = [] ∧
    (close_antigravity envMgrOnly 10 true).1 = true := by
  have h := detection_shutdown_divergence envMgrOnly (by decide)
    ⟨procMgrOnly, by decide, by decide, by decide⟩ (by decide)
  exact ⟨h.1, h.2.1, (h.2.2 10 true).1⟩


